import Mathlib

/-!
Verification of the minutes terminal application, shallowly embedded from
`src/minutes/minutes.py`.  The record store (backed there by a SQLite table
through an ORM session) is modelled as the list of its rows in insertion
order; the screen handlers become pure functions over an application state
holding the store and the navigation stack.
-/

/-- The persisted entity `class Minute(SQLModel, table=True)`: an optional
integer primary key, two required text fields and a nullable text field. -/
structure Minute where
  id : Option Nat
  title : String
  attendees : String
  about : Option String
deriving Repr, DecidableEq

/-- The database state: the rows of the single `minute` table, kept in
insertion (rowid) order. -/
abbrev Store := List Minute

/-- `minutes_all`: `select(Minute)` over the whole table, every row in
store order. -/
def minutes_all (store : Store) : List Minute := store

/-- The primary key SQLite assigns to a freshly inserted row: one more than
the largest key present in the table. -/
def nextId (store : Store) : Nat :=
  (store.filterMap Minute.id).foldr max 0 + 1

/-- `minute_save`: `session.add` + `session.commit` + `session.refresh`.
A minute carrying no id (every minute built by `create_minute`) is inserted
and receives a store-assigned key, which `refresh` writes back into the
object; a minute that already carries an id (a detached row previously
loaded by `minute_get`) overwrites the row with that id on commit.
Returns the new table state together with the refreshed minute. -/
def minute_save (store : Store) (minute : Minute) : Store × Minute :=
  match minute.id with
  | none =>
      let saved := { minute with id := some (nextId store) }
      (store ++ [saved], saved)
  | some i =>
      (store.map (fun r => if r.id = some i then minute else r), minute)

/-- `minute_get`: the guard `if not minute_id: return None` returns the
absent value both for a missing id and for the falsy integer `0`; otherwise
the first row whose primary key matches is returned. -/
def minute_get (store : Store) (minute_id : Option Nat) : Option Minute :=
  match minute_id with
  | none => none
  | some i =>
      if i = 0 then none
      else store.find? (fun m => m.id = some i)

/-- The failures the ORM session raises out of `minute_delete`: passing
`None` raises an unmapped-instance error, and passing an object that was
never persisted (no primary key) raises as well. -/
inductive StoreError where
  | unmappedInstance
  | notPersisted
deriving Repr, DecidableEq

/-- `minute_delete`: `session.delete(minute)` + `session.commit`.  Passing
`None` (the result of a failed `minute_get`) raises rather than being a
silent no-op; a persisted minute has its row removed by primary key. -/
def minute_delete (store : Store) (minute : Option Minute) :
    Except StoreError Store :=
  match minute with
  | none => .error .unmappedInstance
  | some m =>
      match m.id with
      | none => .error .notPersisted
      | some i => .ok (store.filter (fun r => r.id ≠ some i))

/-- `MinuteEditScreen.__init__`: resolve the optional `minute_id` against
the store, keeping the result (possibly absent) as `self.minute`. -/
def minuteEditScreenInit (store : Store) (minute_id : Option Nat) :
    Option Minute :=
  minute_get store minute_id

/-- Initial value of the `#title` input in `MinuteEditScreen.compose`:
`self.minute.title if self.minute else ""`. -/
def editTitle (minute : Option Minute) : String :=
  match minute with
  | some m => m.title
  | none => ""

/-- Initial value of the `#attendees` input in
`MinuteEditScreen.compose`. -/
def editAttendees (minute : Option Minute) : String :=
  match minute with
  | some m => m.attendees
  | none => ""

/-- Initial value of the `#about` input in `MinuteEditScreen.compose`:
the resolved minute's nullable `about`, or the empty string when no minute
was resolved. -/
def editAbout (minute : Option Minute) : Option String :=
  match minute with
  | some m => m.about
  | none => some ""

/-- `MinuteEditScreen.create_minute`: read the three input values, build a
fresh `Minute` with no id (never reusing `self.minute`), and save it. -/
def create_minute (store : Store) (title attendees about : String) : Store :=
  (minute_save store
    { id := none, title := title, attendees := attendees,
      about := some about }).1

/-- `MinuteEditScreen.action_add_bullet`: mount one blank bullet at the end
of the `#bullets` container. -/
def action_add_bullet (bullets : List String) : List String :=
  bullets ++ [""]

/-- `MinuteEditScreen.action_remove_bullet`: if any bullets are mounted,
remove the last one. -/
def action_remove_bullet (bullets : List String) : List String :=
  if bullets.isEmpty then bullets else bullets.dropLast

/-- The store interaction of the `MinuteDeleteScreen` "Yes" handler:
`minute_get` on the screen's id, then `minute_delete` of the result. -/
def deleteYesFlow (store : Store) (minute_id : Option Nat) :
    Except StoreError Store :=
  minute_delete store (minute_get store minute_id)

/-- The kinds of screen the application pushes: `MinutesScreen`,
`MinuteEditScreen`, `MinuteViewScreen` and `MinuteDeleteScreen`, each of
the latter three holding its constructor's `minute_id`. -/
inductive ScreenKind where
  | list
  | edit (minuteId : Option Nat)
  | view (minuteId : Option Nat)
  | deleteConfirm (minuteId : Option Nat)
deriving Repr, DecidableEq

/-- The application state: the store plus the navigation stack, topmost
(active) screen first. -/
structure AppState where
  store : Store
  stack : List ScreenKind
deriving Repr, DecidableEq

/-- The user events the screen handlers dispatch on: the list screen's new
button and per-item affordances, the edit screen's save (carrying the three
input values at press time) and cancel buttons, and the delete confirmation
screen's two buttons. -/
inductive Event where
  | listNew
  | listView (minuteId : Option Nat)
  | listEdit (minuteId : Option Nat)
  | listDelete (minuteId : Option Nat)
  | editSave (title attendees about : String)
  | editCancel
  | deleteYes
  | deleteNo
deriving Repr, DecidableEq

/-- Failures of a transition step: the event does not belong to the active
screen, no screen is active, or a store operation raised. -/
inductive StepError where
  | mismatch
  | emptyStack
  | storeError (e : StoreError)
deriving Repr, DecidableEq

/-- One event handled by the active screen, following the `on_button_pressed`
and action handlers: list-screen affordances push the corresponding screen;
edit save runs `create_minute` then pushes a new list screen; edit cancel
pushes a new list screen with no store interaction; delete "Yes" runs
`minute_get` + `minute_delete` then pushes a new list screen; delete "No"
pops the active screen. -/
def step (e : Event) (s : AppState) : Except StepError AppState :=
  match s.stack with
  | [] => .error .emptyStack
  | top :: rest =>
    match e, top with
    | .listNew, .list => .ok ⟨s.store, .edit none :: top :: rest⟩
    | .listView i, .list => .ok ⟨s.store, .view i :: top :: rest⟩
    | .listEdit i, .list => .ok ⟨s.store, .edit i :: top :: rest⟩
    | .listDelete i, .list => .ok ⟨s.store, .deleteConfirm i :: top :: rest⟩
    | .editSave t a b, .edit _ =>
        .ok ⟨create_minute s.store t a b, .list :: top :: rest⟩
    | .editCancel, .edit _ => .ok ⟨s.store, .list :: top :: rest⟩
    | .deleteYes, .deleteConfirm i =>
        match minute_delete s.store (minute_get s.store i) with
        | .error err => .error (.storeError err)
        | .ok store2 => .ok ⟨store2, .list :: top :: rest⟩
    | .deleteNo, .deleteConfirm _ => .ok ⟨s.store, rest⟩
    | _, _ => .error .mismatch

/-- The three transitions that finish an action: edit save, edit cancel and
delete confirmation "Yes". -/
def actionFinishing : Event → Bool
  | .editSave _ _ _ => true
  | .editCancel => true
  | .deleteYes => true
  | _ => false

/-! ## Helper lemmas -/

theorem mem_le_foldr_max (l : List Nat) (i : Nat) (h : i ∈ l) :
    i ≤ l.foldr max 0 := by
  induction l with
  | nil => simp at h
  | cons x xs ih =>
    simp only [List.foldr_cons]
    rcases List.mem_cons.mp h with rfl | h2
    · exact le_max_left _ _
    · exact le_trans (ih h2) (le_max_right _ _)

theorem id_lt_nextId (store : Store) (m : Minute) (hm : m ∈ store) (i : Nat)
    (hi : m.id = some i) : i < nextId store := by
  have hmem : i ∈ store.filterMap Minute.id :=
    List.mem_filterMap.mpr ⟨m, hm, hi⟩
  have := mem_le_foldr_max _ _ hmem
  simp only [nextId]
  omega

theorem find?_append_of_none {α} (p : α → Bool) (l₁ l₂ : List α)
    (h : l₁.find? p = none) : (l₁ ++ l₂).find? p = l₂.find? p := by
  induction l₁ with
  | nil => rfl
  | cons x xs ih =>
    cases hx : p x with
    | true => simp [List.find?_cons, hx] at h
    | false =>
      simp only [List.find?_cons, hx] at h
      simpa [List.find?_cons, hx] using ih h

/-! ## Claim theorems -/

/-- Claim C2: saving a minute built from field values (t, a, b) assigns a
non-null id, and `minute_get` at that id returns a record with exactly
those field values and that id. -/
theorem save_get_roundtrip (store : Store) (t a : String) (b : Option String) :
    (minute_save store ⟨none, t, a, b⟩).2.id = some (nextId store) ∧
    (minute_save store ⟨none, t, a, b⟩).2.title = t ∧
    (minute_save store ⟨none, t, a, b⟩).2.attendees = a ∧
    (minute_save store ⟨none, t, a, b⟩).2.about = b ∧
    minute_get (minute_save store ⟨none, t, a, b⟩).1 (some (nextId store)) =
      some (minute_save store ⟨none, t, a, b⟩).2 := by
  refine ⟨rfl, rfl, rfl, rfl, ?_⟩
  have hne : nextId store ≠ 0 := by simp only [nextId]; omega
  have hnone : store.find? (fun m => m.id = some (nextId store)) = none := by
    apply List.find?_eq_none.mpr
    intro m hm
    simp only [decide_eq_true_eq]
    intro hid
    exact absurd (id_lt_nextId store m hm (nextId store) hid) (lt_irrefl _)
  simp only [minute_save, minute_get, if_neg hne]
  rw [find?_append_of_none _ _ _ hnone]
  simp [List.find?_cons]

/-- Claim C4: `minute_get` with an absent id returns absent for every store
state, so an edit screen constructed with no `minute_id` resolves no
existing record and starts in create mode with empty fields. -/
theorem get_none_create_mode (store : Store) :
    minute_get store none = none ∧
    minuteEditScreenInit store none = none ∧
    editTitle (minuteEditScreenInit store none) = "" ∧
    editAttendees (minuteEditScreenInit store none) = "" ∧
    editAbout (minuteEditScreenInit store none) = some "" :=
  ⟨rfl, rfl, rfl, rfl, rfl⟩

/-- Claim C10: `minute_get` with the integer id 0 returns absent for every
store state, identically to `minute_get` with no id, so a record carrying
id 0 could never be retrieved. -/
theorem get_zero_absent (store : Store) :
    minute_get store (some 0) = none ∧
    minute_get store (some 0) = minute_get store none ∧
    (∀ m ∈ store, m.id = some 0 → minute_get store m.id = none) := by
  refine ⟨rfl, rfl, ?_⟩
  intro m _ hid
  rw [hid]
  rfl

/-- Claim C9: the bullet sub-list is a stack: adding appends exactly one
blank entry at the end, and removing removes exactly the last entry
(the most recently added one), doing nothing on an empty list. -/
theorem bullets_lifo (bs : List String) (b : String) :
    action_add_bullet bs = bs ++ [""] ∧
    action_remove_bullet (bs ++ [b]) = bs ∧
    action_remove_bullet ([] : List String) = [] := by
  refine ⟨rfl, ?_, rfl⟩
  simp [action_remove_bullet]

/-- Claim C3: deleting a minute present in the store removes the records
carrying its id and nothing else: `minute_get` at that id afterwards
returns absent, `minutes_all` lists no record with that id, every record
with a different id survives, and no record appears that was not already
in the store. -/
theorem delete_removes (store : Store) (m : Minute) (_hm : m ∈ store)
    (store2 : Store) (h : minute_delete store (some m) = .ok store2) :
    minute_get store2 m.id = none ∧
    (∀ r ∈ minutes_all store2, r.id ≠ m.id) ∧
    (∀ r ∈ minutes_all store, r.id ≠ m.id → r ∈ minutes_all store2) ∧
    (∀ r ∈ minutes_all store2, r ∈ minutes_all store) := by
  simp only [minute_delete] at h
  cases hid : m.id with
  | none => simp [hid] at h
  | some i =>
    simp only [hid, Except.ok.injEq] at h
    subst h
    refine ⟨?_, ?_, ?_, ?_⟩
    · by_cases hz : i = 0
      · simp [minute_get, hz]
      · simp only [minute_get, if_neg hz]
        apply List.find?_eq_none.mpr
        intro r hr
        have hr2 := (List.mem_filter.mp hr).2
        simp only [decide_eq_true_eq] at hr2 ⊢
        exact hr2
    · intro r hr
      have hr2 := (List.mem_filter.mp hr).2
      simpa using hr2
    · intro r hr hne
      exact List.mem_filter.mpr ⟨hr, by simpa using hne⟩
    · intro r hr
      exact (List.mem_filter.mp hr).1

theorem delete_removes_witness :
    minute_get ([] : Store) (some 1) = none ∧
    (∀ r ∈ minutes_all ([] : Store), r.id ≠ some 1) ∧
    (∀ r ∈ minutes_all ([⟨some 1, "Sync", "Alice", none⟩] : Store),
      r.id ≠ some 1 → r ∈ minutes_all ([] : Store)) ∧
    (∀ r ∈ minutes_all ([] : Store),
      r ∈ minutes_all ([⟨some 1, "Sync", "Alice", none⟩] : Store)) :=
  delete_removes [⟨some 1, "Sync", "Alice", none⟩]
    ⟨some 1, "Sync", "Alice", none⟩ (List.mem_cons_self _ _) [] rfl

/-- Claim C5: for an id not present in the store, the delete confirmation
"Yes" flow (`minute_get` then `minute_delete` of the result) raises an
error rather than completing silently, while `minute_get` alone on that id
returns absent without error. -/
theorem delete_absent_id_errors (store : Store) (i : Nat)
    (h : ∀ r ∈ store, r.id ≠ some i) :
    deleteYesFlow store (some i) = .error .unmappedInstance ∧
    minute_get store (some i) = none := by
  have hget : minute_get store (some i) = none := by
    by_cases hz : i = 0
    · simp [minute_get, hz]
    · simp only [minute_get, if_neg hz]
      apply List.find?_eq_none.mpr
      intro r hr
      simpa using h r hr
  exact ⟨by simp [deleteYesFlow, hget, minute_delete], hget⟩

theorem delete_absent_id_errors_witness :
    deleteYesFlow ([⟨some 1, "Standup", "Alice", none⟩] : Store) (some 2) =
      .error .unmappedInstance ∧
    minute_get ([⟨some 1, "Standup", "Alice", none⟩] : Store) (some 2) =
      none :=
  delete_absent_id_errors _ 2 (by decide)

/-- Claim C6: pressing cancel on an edit screen performs no store
mutation — `minutes_all` is unchanged — and control transitions to a list
screen. -/
theorem edit_cancel_no_mutation (store : Store) (mid : Option Nat)
    (rest : List ScreenKind) :
    ∃ s', step .editCancel ⟨store, .edit mid :: rest⟩ = .ok s' ∧
      s'.store = store ∧
      minutes_all s'.store = minutes_all store ∧
      s'.stack.head? = some .list :=
  ⟨⟨store, .list :: .edit mid :: rest⟩, rfl, rfl, rfl, rfl⟩

/-- Claim C7: pressing "No" on the delete confirmation screen leaves the
store untouched — the record is still retrievable by its id — and pops the
confirmation screen so the prior list screen is active again. -/
theorem delete_no_keeps_record (store : Store) (mid : Option Nat)
    (m : Minute) (rest : List ScreenKind)
    (h : minute_get store mid = some m) :
    ∃ s', step .deleteNo ⟨store, .deleteConfirm mid :: .list :: rest⟩ =
        .ok s' ∧
      s'.store = store ∧
      minute_get s'.store mid = some m ∧
      s'.stack = .list :: rest :=
  ⟨⟨store, .list :: rest⟩, rfl, rfl, h, rfl⟩

theorem delete_no_keeps_record_witness :
    ∃ s', step .deleteNo
        ⟨[⟨some 1, "Standup", "Alice", none⟩],
         [.deleteConfirm (some 1), .list]⟩ = .ok s' ∧
      s'.store = [⟨some 1, "Standup", "Alice", none⟩] ∧
      minute_get s'.store (some 1) = some ⟨some 1, "Standup", "Alice", none⟩ ∧
      s'.stack = [.list] :=
  delete_no_keeps_record [⟨some 1, "Standup", "Alice", none⟩] (some 1)
    ⟨some 1, "Standup", "Alice", none⟩ [] rfl

/-- Claim C8: every matched transition pushes exactly one screen on top of
the stack without removing the screen beneath — the stack depth grows by
one — except the delete confirmation "No" press, which pops exactly the
active screen; the three action-finishing transitions (edit save, edit
cancel, delete "Yes") moreover push a new list screen on top of the whole
previous stack. -/
theorem stack_depth_step (e : Event) (s s' : AppState)
    (h : step e s = .ok s') :
    (e = .deleteNo → s'.stack.length + 1 = s.stack.length) ∧
    (e ≠ .deleteNo → s'.stack.length = s.stack.length + 1) ∧
    (actionFinishing e = true → s'.stack = .list :: s.stack) := by
  obtain ⟨store, stack⟩ := s
  cases stack with
  | nil => simp [step] at h
  | cons top rest =>
    cases e <;> cases top <;>
      simp only [step] at h <;>
      (try split at h) <;>
      first
      | (injection h with h2; subst h2; simp_all [actionFinishing])
      | injection h

theorem stack_depth_step_witness :
    (Event.listNew = Event.deleteNo →
      (AppState.mk [] [.edit none, .list]).stack.length + 1 =
        (AppState.mk [] [.list]).stack.length) ∧
    (Event.listNew ≠ Event.deleteNo →
      (AppState.mk [] [.edit none, .list]).stack.length =
        (AppState.mk [] [.list]).stack.length + 1) ∧
    (actionFinishing .listNew = true →
      (AppState.mk [] [.edit none, .list]).stack =
        .list :: (AppState.mk [] [.list]).stack) :=
  stack_depth_step .listNew ⟨[], [.list]⟩ ⟨[], [.edit none, .list]⟩ rfl

/-- Claim C1, evaluated at a failing input: with the store holding exactly
the record (id 1, "Sync", "Alice,Bob", "weekly") and the edit screen open
for id 1, pressing save with the title edited to "Sync v2" inserts a second
record under the fresh id 2 and leaves record 1 with its old title — the
store does not end up holding the edited values under id 1, and an
additional record is created. -/
theorem edit_save_duplicates :
    step (.editSave "Sync v2" "Alice,Bob" "weekly")
        ⟨[⟨some 1, "Sync", "Alice,Bob", some "weekly"⟩],
         [.edit (some 1), .list]⟩ =
      .ok ⟨[⟨some 1, "Sync", "Alice,Bob", some "weekly"⟩,
            ⟨some 2, "Sync v2", "Alice,Bob", some "weekly"⟩],
           [.list, .edit (some 1), .list]⟩ ∧
    (minute_get [⟨some 1, "Sync", "Alice,Bob", some "weekly"⟩,
                 ⟨some 2, "Sync v2", "Alice,Bob", some "weekly"⟩]
        (some 1)).map Minute.title = some "Sync" ∧
    (minutes_all [⟨some 1, "Sync", "Alice,Bob", some "weekly"⟩,
                  ⟨some 2, "Sync v2", "Alice,Bob", some "weekly"⟩]).length
      = 2 :=
  ⟨rfl, rfl, rfl⟩
